import Mathlib

/-!
Verification of the SkyClf model-lifecycle core: a shallow embedding of the
model registry (FindSkyStateModel), the ONNX inference engine (Reload, Close,
PredictImage, softmax) and the Docker training orchestrator (Start, monitor,
restoreIdleContainer, stripDockerLogHeaders), with theorems settling the
spec claims about them.

External effects (filesystem reads, ONNX runtime calls, the Docker API)
are modelled as explicit oracle structures whose fields give the result of
each call the code makes; machine floats are modelled by rationals, with
the exponential function passed explicitly as a parameter so that underflow
behaviour (a zero exponential) is representable.  Native handles (sessions,
tensors) are natural numbers, and a World records which handles have been
destroyed.
-/

deriving instance DecidableEq for Except

namespace SkyClf

/-- A directory entry as returned by os.ReadDir: a name and whether it is a
directory. -/
structure DirEnt where
  name : String
  isDir : Bool
deriving DecidableEq

/-- Result of os.ReadDir: the not-exist error (mapped to the distinguished
"no model" result), any other error, or the entry list. -/
inductive ReadDirResult where
  | notExist : ReadDirResult
  | failure : String → ReadDirResult
  | ok : List DirEnt → ReadDirResult
deriving DecidableEq

/-- Result of reading and JSON-decoding classes.json: a read error, a parse
error, or the decoded name-to-index map (as an association list, in the
order the Go code iterates it). -/
inductive ClassesResult where
  | readFailure : String → ClassesResult
  | parseFailure : String → ClassesResult
  | parsed : List (String × Int) → ClassesResult
deriving DecidableEq

/-- The filesystem oracle consumed by FindSkyStateModel: the result of
os.ReadDir at a path, whether os.Stat succeeds at a path, and the decoded
classes.json at a path. -/
structure FS where
  readDir : String → ReadDirResult
  statOk : String → Bool
  classesAt : String → ClassesResult

/-- filepath.Join on two components. -/
def joinPath (a b : String) : String := a ++ "/" ++ b

/-- The ModelInfo record built by FindSkyStateModel. -/
structure ModelInfo where
  version : String
  dir : String
  onnxPath : String
  classes : List (String × Int)
  classNames : List String
deriving DecidableEq

/-- The max-id loop of FindSkyStateModel: max := -1; for each id, if id > max
then max := id. -/
def classMax (classes : List (String × Int)) : Int :=
  classes.foldl (fun m p => if p.2 > m then p.2 else m) (-1)

/-- The assignment loop of FindSkyStateModel: for each (name, id), if
0 <= id < len(names) then names[id] = name. -/
def assignNames (classes : List (String × Int)) (names : List String) : List String :=
  classes.foldl
    (fun ns p => if 0 ≤ p.2 ∧ p.2 < (ns.length : Int) then ns.set p.2.toNat p.1 else ns)
    names

/-- The index-to-name construction of FindSkyStateModel: compute the maximal
id, reject an empty map, assign names into a buffer of length max+1, and
reject the first index left empty. -/
def buildClassNames (classes : List (String × Int)) : Except String (List String) :=
  let m := classMax classes
  if m < 0 then .error "classes.json empty"
  else
    let names := assignNames classes (List.replicate (m.toNat + 1) "")
    match names.findIdx? (fun s => s = "") with
    | some i => .error ("classes.json missing name for id " ++ toString i)
    | none => .ok names

/-- strings.HasPrefix, via character lists (the source compares bytes; all
names involved are ASCII, where character order and byte order agree). -/
def strHasPref (s p : String) : Bool := p.toList.isPrefixOf s.toList

/-- The version-directory filter: entries that are directories whose name
starts with "v". -/
def versionDirs (ents : List DirEnt) : List String :=
  (ents.filter (fun e => e.isDir && strHasPref e.name "v")).map DirEnt.name

/-- sort.Strings followed by taking the last element: the version chosen when
no explicit version is requested.  Go string order is lexicographic on the
underlying characters, embedded here as the order on toList. -/
def pickLatest (vers : List String) : String :=
  (vers.insertionSort (fun a b => a.toList ≤ b.toList)).getLastD ""

instance : IsTotal String (fun a b => a.toList ≤ b.toList) :=
  ⟨fun _ _ => le_total _ _⟩

instance : IsTrans String (fun a b => a.toList ≤ b.toList) :=
  ⟨fun _ _ _ h h2 => le_trans h h2⟩

/-- Shallow embedding of FindSkyStateModel from the infer package.
Except.error is the error channel, Except.ok none the distinguished
"no model" result. -/
def FindSkyStateModel (fs : FS) (modelsDir version : String) :
    Except String (Option ModelInfo) :=
  let root := joinPath modelsDir "skystate"
  match fs.readDir root with
  | .notExist => .ok none
  | .failure msg => .error ("read models root: " ++ msg)
  | .ok ents =>
    let vers := versionDirs ents
    if vers = [] then .ok none
    else
      match (if version = "" then some (pickLatest vers)
             else if version ∈ vers then some version else none) with
      | none => .ok none
      | some ver =>
        let dir := joinPath root ver
        let onnxPath := joinPath dir "model.onnx"
        let classesPath := joinPath dir "classes.json"
        if fs.statOk onnxPath = false then .ok none
        else
          match fs.classesAt classesPath with
          | .readFailure msg => .error ("read classes.json: " ++ msg)
          | .parseFailure msg => .error ("parse classes.json: " ++ msg)
          | .parsed classes =>
            match buildClassNames classes with
            | .error e => .error e
            | .ok names =>
              .ok (some { version := ver, dir := dir, onnxPath := onnxPath,
                          classes := classes, classNames := names })

/-- A filesystem whose models root holds exactly one version directory v1
with an artifact present and the given decoded classes.json. -/
def fsWith (classes : List (String × Int)) : FS where
  readDir := fun _ => .ok [{ name := "v1", isDir := true }]
  statOk := fun _ => true
  classesAt := fun _ => .parsed classes

/-!  The inference engine.  Native ONNX-runtime handles (a session and an
input and output tensor) are natural numbers; a World records, in call
order, the handles on which Destroy has been invoked. -/

/-- The predictor state: the models directory, the active ModelInfo, and the
native session and tensor handles.  The handle fields model the Go pointer
fields: none is a nil pointer; Close destroys the native objects but does
not reset the pointer fields. -/
structure ORTPredictor where
  modelsDir : String
  model : Option ModelInfo
  session : Option Nat
  inTensor : Option Nat
  outTensor : Option Nat
deriving DecidableEq

/-- The native-resource ledger: handles destroyed so far, in order. -/
structure World where
  destroyed : List Nat
deriving DecidableEq

/-- A Destroy call on a handle. -/
def destroy (w : World) (n : Nat) : World := { destroyed := w.destroyed ++ [n] }

/-- The if-non-nil-Destroy pattern used by Close and by the Reload cleanup. -/
def destroyOpt (w : World) (h : Option Nat) : World :=
  match h with
  | none => w
  | some n => destroy w n

/-- Shallow embedding of ORTPredictor.Close: destroy session, input tensor
and output tensor when non-nil, return a nil error.  The pointer fields of
the predictor are left as they are, exactly as in the source. -/
def Close (p : ORTPredictor) (w : World) : (ORTPredictor × World) × Option String :=
  ((p, destroyOpt (destroyOpt (destroyOpt w p.session) p.inTensor) p.outTensor), none)

/-- The ONNX-runtime oracle for one Reload call: the result of each native
call Reload can make, in source order. -/
structure ReloadEnv where
  fs : FS
  newInTensor : Except String Nat
  newOutTensor : Except String Nat
  getwd : Except String String
  chdirOk : Bool
  newSession : Except String Nat

/-- The build-and-swap phase of Reload, entered once discovery has produced
a model different from the active one: create the input tensor, the output
tensor and the session (destroying the fresh tensors on a later failure),
then swap the active fields and destroy the old session and tensors. -/
def buildAndSwap (p : ORTPredictor) (w : World) (env : ReloadEnv) (mi : ModelInfo)
    (modelsDir : String) : (ORTPredictor × World) × Except String Unit :=
  match env.newInTensor with
  | .error e => ((p, w), .error ("create input tensor: " ++ e))
  | .ok newIn =>
    match env.newOutTensor with
    | .error e => ((p, destroy w newIn), .error ("create output tensor: " ++ e))
    | .ok newOut =>
      match env.getwd with
      | .error e => ((p, destroy (destroy w newIn) newOut), .error ("get working dir: " ++ e))
      | .ok _ =>
        if env.chdirOk = false then
          ((p, destroy (destroy w newIn) newOut), .error "chdir to model dir")
        else
          match env.newSession with
          | .error e => ((p, destroy (destroy w newIn) newOut), .error ("create session: " ++ e))
          | .ok newSess =>
            let w2 := destroyOpt (destroyOpt (destroyOpt w p.session) p.inTensor) p.outTensor
            (({ modelsDir := modelsDir, model := some mi, session := some newSess,
                inTensor := some newIn, outTensor := some newOut }, w2), .ok ())

/-- Shallow embedding of ORTPredictor.Reload: default the models directory,
discover via the registry, return nil on "no model", return nil without
building when the resolved artifact path equals the active one, and
otherwise build and swap. -/
def Reload (p : ORTPredictor) (w : World) (env : ReloadEnv) (modelsDir version : String) :
    (ORTPredictor × World) × Except String Unit :=
  let dir := if modelsDir = "" then p.modelsDir else modelsDir
  match FindSkyStateModel env.fs dir version with
  | .error e => ((p, w), .error ("scan models: " ++ e))
  | .ok none => ((p, w), .ok ())
  | .ok (some mi) =>
    match p.model with
    | some m =>
      if m.onnxPath = mi.onnxPath then ((p, w), .ok ())
      else buildAndSwap p w env mi dir
    | none => buildAndSwap p w env mi dir

/-!  Prediction: softmax, argmax and PredictImage.  float32/float64 values
are modelled by rationals; the floating-point exponential is an explicit
parameter fexp (so that underflow to zero is representable), and the
division by the exponential sum is exact. -/

/-- The maximum loop of softmax: maxV := logits[0], replaced by any later
strictly larger logit. -/
def maxLogit (l0 : ℚ) (rest : List ℚ) : ℚ :=
  rest.foldl (fun m v => if v > m then v else m) l0

/-- The exponentiation loop of softmax: every logit minus the maximum,
through the floating-point exponential. -/
def expVec (fexp : ℚ → ℚ) (logits : List ℚ) (maxV : ℚ) : List ℚ :=
  logits.map (fun v => fexp (v - maxV))

/-- The exponential sum accumulated by softmax. -/
def sumExp (fexp : ℚ → ℚ) (logits : List ℚ) (maxV : ℚ) : ℚ :=
  (expVec fexp logits maxV).foldl (fun s v => s + v) 0

/-- Shallow embedding of softmax: on a non-empty input subtract the maximal
logit before applying the exponential, sum the exponentials, return the
unnormalized vector when the sum is zero and otherwise multiply each entry
by the inverse of the sum. -/
def softmax (fexp : ℚ → ℚ) (logits : List ℚ) : List ℚ :=
  match logits with
  | [] => []
  | l0 :: rest =>
    let maxV := maxLogit l0 rest
    let out := expVec fexp (l0 :: rest) maxV
    let sum := sumExp fexp (l0 :: rest) maxV
    if sum = 0 then out
    else out.map (fun v => v * (1 / sum))

/-- The argmax loop of PredictImage: start from index 0 and replace the best
index whenever a strictly larger probability appears. -/
def argmaxFrom : List ℚ → Nat → Nat → ℚ → Nat
  | [], _, bi, _ => bi
  | v :: vs, i, bi, b =>
    if v > b then argmaxFrom vs (i + 1) i v else argmaxFrom vs (i + 1) bi b

/-- argmax over the probability vector, as in PredictImage. -/
def argmax (probs : List ℚ) : Nat :=
  argmaxFrom probs.tail 1 0 (probs.getD 0 0)

/-- The Prediction record returned by PredictImage. -/
structure Prediction where
  skyState : String
  confidence : ℚ
  probs : List (String × ℚ)
  modelTask : String
  modelVer : String
  modelPath : String
deriving DecidableEq

/-- Outcome of a PredictImage call. -/
inductive PredictResult where
  | noModel : PredictResult
  | preprocessFailure : String → PredictResult
  | runFailure : String → PredictResult
  | ok : Prediction → PredictResult
deriving DecidableEq

/-- The oracle for one PredictImage call: the preprocessing result, the
session Run result, the logits read from the output tensor afterwards, and
the floating-point exponential used by softmax. -/
structure PredictEnv where
  preprocess : Except String (List ℚ)
  runResult : Except String Unit
  outData : List ℚ
  fexp : ℚ → ℚ

/-- Shallow embedding of ORTPredictor.PredictImage.  Besides the outcome it
returns the list of native handles the call operated on (the input tensor
written by copy, the session it ran, the output tensor it read), so that
use of a destroyed handle is observable. -/
def PredictImage (p : ORTPredictor) (env : PredictEnv) :
    PredictResult × List (Option Nat) :=
  match p.session, p.model with
  | some _, some m =>
    (match env.preprocess with
     | .error e => (.preprocessFailure e, [])
     | .ok _ =>
       match env.runResult with
       | .error e => (.runFailure ("onnx run: " ++ e), [p.inTensor, p.session])
       | .ok _ =>
         let logits := env.outData
         let probs := softmax env.fexp logits
         let bestIdx := argmax probs
         let best := probs.getD bestIdx 0
         let probMap := m.classNames.enum.map (fun x => (x.2, probs.getD x.1 0))
         (.ok { skyState := m.classNames.getD bestIdx "", confidence := best,
                probs := probMap, modelTask := "skystate", modelVer := m.version,
                modelPath := m.onnxPath },
          [p.inTensor, p.session, p.outTensor]))
  | _, _ => (.noModel, [])

/-!  The training orchestrator.  Docker API calls are recorded as an
operation list; the results of the calls a function makes are supplied by
an oracle structure. -/

/-- The training parameters from the UI. -/
structure TrainConfig where
  epochs : Int
  batchSize : Int
  lr : String
  imageSize : Int
  seed : Int
  valSplit : String
  fromScratch : Bool
deriving DecidableEq

/-- A container configuration: the command plus the rest of the settings
(volumes, environment, limits), opaque to the orchestrator and modelled as
a number. -/
structure ContainerCfg where
  cmd : List String
  rest : Nat
deriving DecidableEq

/-- Orchestrator state: the status fields, the managed container name, the
saved restoration template, and whether a completion callback is
registered. -/
structure Trainer where
  running : Bool
  startedAt : Nat
  lastExitCode : Int
  lastError : String
  lastLogs : String
  lastConfig : Option TrainConfig
  containerName : String
  baseConfig : Option ContainerCfg
  baseHostConfig : Option Nat
  onComplete : Bool
deriving DecidableEq

/-- A Docker API call (or completion-callback invocation) made by the
orchestrator, recorded in call order. -/
inductive DockerOp where
  | removeContainer : String → DockerOp
  | createContainer : String → ContainerCfg → Nat → DockerOp
  | startContainer : String → DockerOp
  | fetchLogs : String → Int → DockerOp
  | callback : DockerOp
deriving DecidableEq

/-- The command built by Start from the training config. -/
def buildCmd (cfg : TrainConfig) : List String :=
  ["python", "-m", "trainer.train",
   "--epochs", toString cfg.epochs,
   "--batch", toString cfg.batchSize,
   "--lr", cfg.lr,
   "--img", toString cfg.imageSize,
   "--seed", toString cfg.seed,
   "--val", cfg.valSplit] ++ (if cfg.fromScratch then ["--from-scratch"] else [])

/-- The Docker results consumed by one Start call. -/
structure StartEnv where
  liveRunning : Bool
  inspect : Except String (ContainerCfg × Nat)
  createResult : Except String String
  startResult : Except String Unit

/-- Shallow embedding of Trainer.Start: reject when a container under the
managed name is live, snapshot the inspected config as the restoration
template, remove and recreate the container with the training command,
start it, and on success reset error/log state and record the config and
start time.  The last exit code is not written. -/
def Start (t : Trainer) (env : StartEnv) (cfg : TrainConfig) (now : Nat) :
    (Trainer × List DockerOp) × Except String Unit :=
  if env.liveRunning = true then
    ((t, []), .error "training already in progress")
  else
    match env.inspect with
    | .error e => ((t, []), .error ("trainer container not found (is docker-compose up?): " ++ e))
    | .ok (baseCfg, baseHost) =>
      let t1 := { t with baseConfig := some baseCfg, baseHostConfig := some baseHost }
      let ops := [DockerOp.removeContainer t.containerName,
                  DockerOp.createContainer t.containerName { baseCfg with cmd := buildCmd cfg } baseHost]
      match env.createResult with
      | .error e => ((t1, ops), .error ("recreate container: " ++ e))
      | .ok cid =>
        match env.startResult with
        | .error e => ((t1, ops ++ [DockerOp.startContainer cid]), .error ("start container: " ++ e))
        | .ok _ =>
          (({ t1 with
                running := true
                startedAt := now
                lastError := ""
                lastLogs := ""
                lastConfig := some cfg }, ops ++ [DockerOp.startContainer cid]), .ok ())

/-- The Docker results consumed by one restoreIdleContainer call. -/
structure RestoreEnv where
  removeOk : Bool
  createResult : Except String String
  startResult : Except String Unit

/-- Shallow embedding of restoreIdleContainer: a no-op without a saved
template; otherwise remove whatever remains (errors only logged), recreate
from the template under the managed name, and start the new container.
Returns the operations attempted; trainer state is not mutated. -/
def restoreIdleContainer (t : Trainer) (env : RestoreEnv) : List DockerOp :=
  match t.baseConfig, t.baseHostConfig with
  | some cfg, some host =>
    DockerOp.removeContainer t.containerName ::
      DockerOp.createContainer t.containerName cfg host ::
        (match env.createResult with
         | .error _ => []
         | .ok cid => [DockerOp.startContainer cid])
  | _, _ => []

/-- What the ContainerWait call reports: a wait error, or the exit status
body (status code plus optional platform error message). -/
inductive WaitOutcome where
  | waitFailure : String → WaitOutcome
  | exited : Int → Option String → WaitOutcome
deriving DecidableEq

/-- The results consumed by one monitor run. -/
structure MonitorEnv where
  logs : String
  restore : RestoreEnv

/-- Shallow embedding of Trainer.monitor: on a wait error record it and
clear running; on exit capture logs, clear running, record the exit code
and logs, record the platform error message or, for a nonzero code, the
descriptive job-failure message; invoke the completion callback exactly
when the code is zero and a callback is registered; in all cases restore
the idle container afterwards. -/
def monitor (t : Trainer) (containerID : String) (wres : WaitOutcome) (env : MonitorEnv) :
    Trainer × List DockerOp :=
  match wres with
  | .waitFailure msg =>
    let t1 := { t with running := false, lastError := msg }
    (t1, restoreIdleContainer t1 env.restore)
  | .exited code errMsg =>
    let t1 := { t with
                  running := false
                  lastExitCode := code
                  lastLogs := env.logs
                  lastError :=
                    match errMsg with
                    | some m => m
                    | none =>
                      if code ≠ 0 then "training failed with exit code " ++ toString code
                      else t.lastError }
    let cbOps := if code = 0 then (if t.onComplete then [DockerOp.callback] else []) else []
    (t1, DockerOp.fetchLogs containerID 500 :: (cbOps ++ restoreIdleContainer t1 env.restore))

/-- Decoding of the 8-byte chunk header: bytes 4 to 7 as a big-endian
payload length. -/
def headerLen (data : List Nat) : Nat :=
  ((data.getD 4 0) <<< 24) ||| ((data.getD 5 0) <<< 16) |||
    ((data.getD 6 0) <<< 8) ||| (data.getD 7 0)

/-- The chunk loop of stripDockerLogHeaders, with an explicit fuel bounding
the number of iterations (each iteration consumes at least 8 bytes, so any
fuel at least the input length is enough; stripChunks_eq below recovers the
plain loop equation): while at least 8 bytes remain, read the declared
payload length, drop the header, clamp the length to the remaining bytes,
collect a nonempty payload, and continue after it. -/
def stripChunksFuel : Nat → List Nat → List (List Nat)
  | 0, _ => []
  | fuel + 1, data =>
    if 8 ≤ data.length then
      let size := headerLen data
      let rest := data.drop 8
      let size2 := if rest.length < size then rest.length else size
      (if 0 < size2 then [rest.take size2] else []) ++ stripChunksFuel fuel (rest.drop size2)
    else []

/-- The chunk loop of stripDockerLogHeaders, fuelled by the input length. -/
def stripChunks (data : List Nat) : List (List Nat) :=
  stripChunksFuel data.length data

/-- Shallow embedding of stripDockerLogHeaders: the concatenation of the
collected payloads (strings.Join with the empty separator), on bytes. -/
def stripDockerLogHeaders (data : List Nat) : List Nat :=
  (stripChunks data).flatten

/-!  Concrete fixtures used by witnesses and counterexamples. -/

/-- The ModelInfo produced by discovery over fsWith [("clear",0),("cloudy",1)]. -/
def miFix : ModelInfo :=
  { version := "v1", dir := "models/skystate/v1",
    onnxPath := "models/skystate/v1/model.onnx",
    classes := [("clear", 0), ("cloudy", 1)], classNames := ["clear", "cloudy"] }

/-- A valid single-version filesystem. -/
def fsFix : FS := fsWith [("clear", 0), ("cloudy", 1)]

/-- A reload oracle where every native call succeeds. -/
def envFix : ReloadEnv :=
  { fs := fsFix, newInTensor := .ok 20, newOutTensor := .ok 21,
    getwd := .ok "/w", chdirOk := true, newSession := .ok 22 }

/-- An unloaded predictor. -/
def pFix : ORTPredictor :=
  { modelsDir := "models", model := none, session := none,
    inTensor := none, outTensor := none }

/-- A predictor with a loaded model on native handles 10, 11, 12. -/
def pLoaded : ORTPredictor :=
  { modelsDir := "models", model := some miFix, session := some 10,
    inTensor := some 11, outTensor := some 12 }

/-- A prediction oracle where preprocessing and Run succeed. -/
def penvFix : PredictEnv :=
  { preprocess := .ok [], runResult := .ok (), outData := [1, 2], fexp := fun _ => 1 }

/-- A filesystem holding version directories v9 and v10, both with valid
artifacts and class maps. -/
def fsV910 : FS where
  readDir := fun _ => .ok [{ name := "v9", isDir := true }, { name := "v10", isDir := true }]
  statOk := fun _ => true
  classesAt := fun _ => .parsed [("clear", 0)]

/-- The ModelInfo discovery returns over fsV910 (lexicographic order picks
v9 over v10). -/
def miV9 : ModelInfo :=
  { version := "v9", dir := "models/skystate/v9",
    onnxPath := "models/skystate/v9/model.onnx",
    classes := [("clear", 0)], classNames := ["clear"] }

/-- A filesystem whose models root exists but holds no version directory. -/
def fsEmpty : FS where
  readDir := fun _ => .ok []
  statOk := fun _ => true
  classesAt := fun _ => .parsed []

/-- A filesystem with no models root at all. -/
def fsNone : FS where
  readDir := fun _ => .notExist
  statOk := fun _ => true
  classesAt := fun _ => .parsed []

/-- A trainer mid-run with a saved restoration template and a registered
completion callback. -/
def tFix : Trainer :=
  { running := true, startedAt := 1, lastExitCode := -1, lastError := "",
    lastLogs := "", lastConfig := none, containerName := "skyclf-trainer",
    baseConfig := some { cmd := ["sleep"], rest := 4 }, baseHostConfig := some 6,
    onComplete := true }

/-- A monitor oracle whose restoration calls succeed. -/
def menvFix : MonitorEnv :=
  { logs := "done"
    restore := { removeOk := true, createResult := .ok "c1", startResult := .ok () } }

/-- A trainer carrying the record of a previous failed run (exit code 3). -/
def tPrev : Trainer :=
  { running := false, startedAt := 5, lastExitCode := 3, lastError := "boom",
    lastLogs := "old", lastConfig := none, containerName := "skyclf-trainer",
    baseConfig := none, baseHostConfig := none, onComplete := false }

/-- A Start oracle where every Docker call succeeds. -/
def senvFix : StartEnv :=
  { liveRunning := false, inspect := .ok ({ cmd := ["idle"], rest := 7 }, 9),
    createResult := .ok "c2", startResult := .ok () }

/-- The default training config from DefaultTrainConfig. -/
def cfgFix : TrainConfig :=
  { epochs := 10, batchSize := 16, lr := "0.001", imageSize := 224, seed := 42,
    valSplit := "0.2", fromScratch := false }

/-!  Theorems.  First the generic lemmas about the embedded operations,
then one theorem per spec claim (with its witness or counterexample). -/

theorem stripChunksFuel_congr :
    ∀ f1 f2 : Nat, ∀ data : List Nat, data.length ≤ f1 → data.length ≤ f2 →
      stripChunksFuel f1 data = stripChunksFuel f2 data := by
  intro f1
  induction f1 using Nat.strong_induction_on with
  | _ f1 ih =>
    intro f2 data h1 h2
    match f1, f2 with
    | 0, f2 =>
      have hd : ¬ (8 ≤ data.length) := by omega
      match f2 with
      | 0 => rfl
      | f2 + 1 => simp [stripChunksFuel, hd]
    | f1 + 1, 0 =>
      have hd : ¬ (8 ≤ data.length) := by omega
      simp [stripChunksFuel, hd]
    | f1 + 1, f2 + 1 =>
      by_cases hd : 8 ≤ data.length
      · simp only [stripChunksFuel, if_pos hd]
        have hlen : ((data.drop 8).drop (if (data.drop 8).length < headerLen data
            then (data.drop 8).length else headerLen data)).length ≤ f1 := by
          simp only [List.length_drop]
          omega
        have hlen2 : ((data.drop 8).drop (if (data.drop 8).length < headerLen data
            then (data.drop 8).length else headerLen data)).length ≤ f2 := by
          simp only [List.length_drop]
          omega
        rw [ih f1 (by omega) f2 _ hlen hlen2]
      · simp [stripChunksFuel, hd]

/-- The loop equation of stripChunks, as written in the source. -/
theorem stripChunks_eq (data : List Nat) :
    stripChunks data =
      if 8 ≤ data.length then
        let size := headerLen data
        let rest := data.drop 8
        let size2 := if rest.length < size then rest.length else size
        (if 0 < size2 then [rest.take size2] else []) ++ stripChunks (rest.drop size2)
      else [] := by
  show stripChunksFuel data.length data = _
  by_cases hd : 8 ≤ data.length
  · match hl : data.length with
    | 0 => omega
    | n + 1 =>
      simp only [stripChunksFuel, hl ▸ hd, if_pos (hl ▸ hd)]
      simp only [stripChunks]
      rw [stripChunksFuel_congr n _ _ (by simp only [List.length_drop]; omega) (le_refl _)]
      simp [hd]
  · match hl : data.length with
    | 0 => simp [stripChunksFuel, stripChunks]
    | n + 1 => simp only [stripChunksFuel, if_neg (hl ▸ hd), if_neg hd]

/-- One decoding step of stripDockerLogHeaders: drop the 8-byte header,
clamp the declared length to the remainder, emit the payload, continue. -/
theorem stripDockerLogHeaders_step (data : List Nat) (h : 8 ≤ data.length) :
    stripDockerLogHeaders data =
      (data.drop 8).take (min (headerLen data) (data.length - 8)) ++
        stripDockerLogHeaders ((data.drop 8).drop (min (headerLen data) (data.length - 8))) := by
  have hmin : (if (data.drop 8).length < headerLen data
      then (data.drop 8).length else headerLen data) = min (headerLen data) (data.length - 8) := by
    simp only [List.length_drop]
    rcases Nat.lt_or_ge (data.length - 8) (headerLen data) with hc | hc
    · rw [if_pos hc]
      omega
    · rw [if_neg (by omega)]
      omega
  simp only [stripDockerLogHeaders]
  rw [stripChunks_eq, if_pos h]
  simp only [hmin]
  rcases Nat.eq_zero_or_pos (min (headerLen data) (data.length - 8)) with hz | hz
  · simp [hz]
  · simp [hz]

/-- C7: stripDockerLogHeaders repeatedly consumes an 8-byte header followed
by the declared number of payload bytes (bytes 4 to 7 big-endian), ignores
the stream-type and reserved bytes, clamps a declared length that exceeds
the remainder, drops a trailing fragment shorter than a header, and
concatenates the payloads in order; in particular the single chunk
[1,0,0,0,0,0,0,5] ++ "hello" decodes to exactly "hello". -/
theorem stripDockerLogHeaders_spec :
    (∀ data : List Nat, data.length < 8 → stripDockerLogHeaders data = []) ∧
    (∀ data : List Nat, 8 ≤ data.length →
      stripDockerLogHeaders data =
        (data.drop 8).take (min (headerLen data) (data.length - 8)) ++
          stripDockerLogHeaders ((data.drop 8).drop (min (headerLen data) (data.length - 8)))) ∧
    (∀ a b c d a2 b2 c2 d2 : Nat, ∀ tl : List Nat,
      stripDockerLogHeaders (a :: b :: c :: d :: tl) =
        stripDockerLogHeaders (a2 :: b2 :: c2 :: d2 :: tl)) ∧
    stripDockerLogHeaders ([1, 0, 0, 0, 0, 0, 0, 5] ++ [104, 101, 108, 108, 111]) =
      [104, 101, 108, 108, 111] := by
  refine ⟨?_, ?_, ?_, by decide⟩
  · intro data h
    simp only [stripDockerLogHeaders]
    rw [stripChunks_eq, if_neg (by omega)]
    rfl
  · exact fun data h => stripDockerLogHeaders_step data h
  · intro a b c d a2 b2 c2 d2 tl
    simp only [stripDockerLogHeaders]
    rw [stripChunks_eq, stripChunks_eq]
    have h1 : headerLen (a :: b :: c :: d :: tl) = headerLen (a2 :: b2 :: c2 :: d2 :: tl) := rfl
    have h2 : (a :: b :: c :: d :: tl).drop 8 = (a2 :: b2 :: c2 :: d2 :: tl).drop 8 := rfl
    have h3 : (a :: b :: c :: d :: tl).length = (a2 :: b2 :: c2 :: d2 :: tl).length := by
      simp
    rw [h1, h2, h3]

/-- Witness for C7 at concrete inputs: a 3-byte fragment decodes to
nothing, and one full chunk steps as described. -/
theorem stripDockerLogHeaders_spec_witness :
    stripDockerLogHeaders [1, 2, 3] = [] ∧
    stripDockerLogHeaders [1, 0, 0, 0, 0, 0, 0, 2, 104, 105] =
      ([1, 0, 0, 0, 0, 0, 0, 2, 104, 105].drop 8).take
          (min (headerLen [1, 0, 0, 0, 0, 0, 0, 2, 104, 105])
            ([1, 0, 0, 0, 0, 0, 0, 2, 104, 105].length - 8)) ++
        stripDockerLogHeaders (([1, 0, 0, 0, 0, 0, 0, 2, 104, 105].drop 8).drop
          (min (headerLen [1, 0, 0, 0, 0, 0, 0, 2, 104, 105])
            ([1, 0, 0, 0, 0, 0, 0, 2, 104, 105].length - 8))) ∧
    stripDockerLogHeaders (7 :: 8 :: 9 :: 10 :: [0, 0, 0, 1, 42]) =
      stripDockerLogHeaders (0 :: 0 :: 0 :: 0 :: [0, 0, 0, 1, 42]) :=
  ⟨stripDockerLogHeaders_spec.1 [1, 2, 3] (by decide),
   stripDockerLogHeaders_spec.2.1 [1, 0, 0, 0, 0, 0, 0, 2, 104, 105] (by decide),
   stripDockerLogHeaders_spec.2.2.1 7 8 9 10 0 0 0 0 [0, 0, 0, 1, 42]⟩

theorem foldl_add_eq (l : List ℚ) (a : ℚ) : l.foldl (fun s v => s + v) a = a + l.sum := by
  induction l generalizing a with
  | nil => simp
  | cons x xs ih =>
    simp only [List.foldl_cons, ih, List.sum_cons]
    ring

theorem maxLogit_cons (l0 v : ℚ) (rest : List ℚ) :
    maxLogit l0 (v :: rest) = maxLogit (if v > l0 then v else l0) rest := rfl

theorem maxLogit_mem (rest : List ℚ) :
    ∀ l0 : ℚ, maxLogit l0 rest = l0 ∨ maxLogit l0 rest ∈ rest := by
  induction rest with
  | nil => exact fun l0 => Or.inl rfl
  | cons v vs ih =>
    intro l0
    rw [maxLogit_cons]
    rcases ih (if v > l0 then v else l0) with h | h
    · by_cases hv : v > l0
      · right
        rw [h, if_pos hv]
        exact List.mem_cons_self _ _
      · left
        rw [h, if_neg hv]
    · right
      exact List.mem_cons_of_mem _ h

theorem le_maxLogit (rest : List ℚ) :
    ∀ l0 : ℚ, l0 ≤ maxLogit l0 rest ∧ ∀ v ∈ rest, v ≤ maxLogit l0 rest := by
  induction rest with
  | nil =>
    intro l0
    exact ⟨le_refl _, by simp⟩
  | cons x xs ih =>
    intro l0
    rw [maxLogit_cons]
    obtain ⟨h1, h2⟩ := ih (if x > l0 then x else l0)
    have hbase : l0 ≤ (if x > l0 then x else l0) := by
      by_cases hx : x > l0
      · rw [if_pos hx]
        linarith
      · rw [if_neg hx]
    refine ⟨le_trans hbase h1, ?_⟩
    intro v hv
    rcases List.mem_cons.mp hv with rfl | hv2
    · have hvb : v ≤ (if v > l0 then v else l0) := by
        by_cases hx : v > l0
        · rw [if_pos hx]
        · rw [if_neg hx]
          linarith
      exact le_trans hvb h1
    · exact h2 v hv2

theorem eq_zero_of_sum_zero (l : List ℚ) (hn : ∀ x ∈ l, 0 ≤ x) (hs : l.sum = 0) :
    ∀ x ∈ l, x = 0 := by
  induction l with
  | nil => simp
  | cons x xs ih =>
    have hx : 0 ≤ x := hn x (List.mem_cons_self _ _)
    have hxs : 0 ≤ xs.sum := List.sum_nonneg (fun y hy => hn y (List.mem_cons_of_mem _ hy))
    rw [List.sum_cons] at hs
    have hx0 : x = 0 := by linarith
    have hs0 : xs.sum = 0 := by linarith
    intro y hy
    rcases List.mem_cons.mp hy with rfl | hy2
    · exact hx0
    · exact ih (fun z hz => hn z (List.mem_cons_of_mem _ hz)) hs0 y hy2

theorem getD_map_lt (f : ℚ → ℚ) (l : List ℚ) :
    ∀ i : Nat, i < l.length → ∀ d d2 : ℚ, (l.map f).getD i d = f (l.getD i d2) := by
  induction l with
  | nil =>
    intro i hi
    simp at hi
  | cons x xs ih =>
    intro i hi d d2
    cases i with
    | zero => rfl
    | succ n =>
      simp only [List.map_cons, List.getD_cons_succ]
      exact ih n (by simpa using hi) d d2

/-- C8: softmax maps the empty vector to the empty vector, preserves length,
subtracts the true maximum of the logits before exponentiating, degrades to
the all-zero vector when the exponential sum is zero (given that the
exponential is nonnegative, as the floating-point exp is), and otherwise
returns exp(logit - max)/sum entrywise. -/
theorem softmax_spec (fexp : ℚ → ℚ) (hpos : ∀ x : ℚ, 0 ≤ fexp x) :
    softmax fexp [] = [] ∧
    (∀ logits : List ℚ, (softmax fexp logits).length = logits.length) ∧
    (∀ l0 : ℚ, ∀ rest : List ℚ,
      maxLogit l0 rest ∈ l0 :: rest ∧ ∀ v ∈ l0 :: rest, v ≤ maxLogit l0 rest) ∧
    (∀ l0 : ℚ, ∀ rest : List ℚ, sumExp fexp (l0 :: rest) (maxLogit l0 rest) = 0 →
      softmax fexp (l0 :: rest) = List.replicate (rest.length + 1) 0) ∧
    (∀ l0 : ℚ, ∀ rest : List ℚ, sumExp fexp (l0 :: rest) (maxLogit l0 rest) ≠ 0 →
      ∀ i : Nat, i < rest.length + 1 →
        (softmax fexp (l0 :: rest)).getD i 0 =
          fexp ((l0 :: rest).getD i 0 - maxLogit l0 rest) /
            sumExp fexp (l0 :: rest) (maxLogit l0 rest)) := by
  refine ⟨rfl, ?_, ?_, ?_, ?_⟩
  · intro logits
    cases logits with
    | nil => rfl
    | cons l0 rest =>
      simp only [softmax, expVec]
      split
      · simp
      · simp
  · intro l0 rest
    constructor
    · rcases maxLogit_mem rest l0 with h | h
      · rw [h]
        exact List.mem_cons_self _ _
      · exact List.mem_cons_of_mem _ h
    · intro v hv
      rcases List.mem_cons.mp hv with rfl | hv2
      · exact (le_maxLogit rest v).1
      · exact (le_maxLogit rest l0).2 v hv2
  · intro l0 rest hz
    simp only [softmax, if_pos hz]
    have hlen : (expVec fexp (l0 :: rest) (maxLogit l0 rest)).length = rest.length + 1 := by
      simp [expVec]
    have hsum : (expVec fexp (l0 :: rest) (maxLogit l0 rest)).sum = 0 := by
      have := foldl_add_eq (expVec fexp (l0 :: rest) (maxLogit l0 rest)) 0
      simp only [sumExp] at hz
      rw [this] at hz
      linarith
    have hmem : ∀ x ∈ expVec fexp (l0 :: rest) (maxLogit l0 rest), 0 ≤ x := by
      intro x hx
      simp only [expVec, List.mem_map] at hx
      obtain ⟨v, _, rfl⟩ := hx
      exact hpos _
    rw [List.eq_replicate_iff]
    exact ⟨hlen, eq_zero_of_sum_zero _ hmem hsum⟩
  · intro l0 rest hnz i hi
    simp only [softmax, if_neg hnz]
    have hlen : i < (expVec fexp (l0 :: rest) (maxLogit l0 rest)).length := by
      simp [expVec]
      omega
    rw [getD_map_lt _ _ i hlen 0 0]
    have hlen2 : i < (l0 :: rest).length := by
      simp
      omega
    have hev : (expVec fexp (l0 :: rest) (maxLogit l0 rest)).getD i 0 =
        fexp ((l0 :: rest).getD i 0 - maxLogit l0 rest) := by
      simp only [expVec]
      exact getD_map_lt _ _ i (by simpa using hlen2) 0 0
    rw [hev, mul_one_div]

/-- Witness for C8: with the zero exponential (total underflow) the logits
[1, 2] map to the all-zero vector; with the constant-one exponential the
first entry is exp(logit - max)/sum. -/
theorem softmax_spec_witness :
    softmax (fun _ => (0 : ℚ)) [1, 2] = List.replicate 2 0 ∧
    (softmax (fun _ => (1 : ℚ)) [1, 2]).getD 0 0 =
      1 / sumExp (fun _ => (1 : ℚ)) [1, 2] (maxLogit 1 [2]) :=
  ⟨(softmax_spec (fun _ => 0) (fun _ => le_refl 0)).2.2.2.1 1 [2] (by norm_num [sumExp, expVec, maxLogit]),
   (softmax_spec (fun _ => 1) (fun _ => by norm_num)).2.2.2.2 1 [2] (by norm_num [sumExp, expVec, maxLogit]) 0 (by norm_num)⟩

/-- C3: when the container wait reports exit status 0 the monitor clears
running, records exit code 0 and the captured logs, invokes the registered
completion callback exactly once, and then restores the idle container
(remove, recreate from the saved template under the same name, start); when
the wait reports a nonzero status it records the descriptive job-failure
error, invokes no callback, and still restores the idle container. -/
theorem monitor_spec (t : Trainer) (cid : String) (env : MonitorEnv)
    (bc : ContainerCfg) (bh : Nat) (nid : String)
    (hbc : t.baseConfig = some bc) (hbh : t.baseHostConfig = some bh)
    (hcb : t.onComplete = true)
    (hcr : env.restore.createResult = .ok nid) :
    ((monitor t cid (.exited 0 none) env).1.running = false ∧
     (monitor t cid (.exited 0 none) env).1.lastExitCode = 0 ∧
     (monitor t cid (.exited 0 none) env).1.lastLogs = env.logs ∧
     (monitor t cid (.exited 0 none) env).2.count DockerOp.callback = 1 ∧
     (monitor t cid (.exited 0 none) env).2 =
       [DockerOp.fetchLogs cid 500, DockerOp.callback,
        DockerOp.removeContainer t.containerName,
        DockerOp.createContainer t.containerName bc bh,
        DockerOp.startContainer nid]) ∧
    (∀ c : Int, c ≠ 0 →
      (monitor t cid (.exited c none) env).1.running = false ∧
      (monitor t cid (.exited c none) env).1.lastExitCode = c ∧
      (monitor t cid (.exited c none) env).1.lastLogs = env.logs ∧
      (monitor t cid (.exited c none) env).1.lastError =
        "training failed with exit code " ++ toString c ∧
      (monitor t cid (.exited c none) env).2.count DockerOp.callback = 0 ∧
      (monitor t cid (.exited c none) env).2 =
        [DockerOp.fetchLogs cid 500, DockerOp.removeContainer t.containerName,
         DockerOp.createContainer t.containerName bc bh,
         DockerOp.startContainer nid]) := by
  constructor
  · have hops : (monitor t cid (.exited 0 none) env).2 =
        [DockerOp.fetchLogs cid 500, DockerOp.callback,
         DockerOp.removeContainer t.containerName,
         DockerOp.createContainer t.containerName bc bh,
         DockerOp.startContainer nid] := by
      simp [monitor, restoreIdleContainer, hbc, hbh, hcb, hcr]
    refine ⟨by simp [monitor], by simp [monitor], by simp [monitor], ?_, hops⟩
    rw [hops]
    simp [List.count_cons]
  · intro c hc
    have hops : (monitor t cid (.exited c none) env).2 =
        [DockerOp.fetchLogs cid 500, DockerOp.removeContainer t.containerName,
         DockerOp.createContainer t.containerName bc bh,
         DockerOp.startContainer nid] := by
      simp [monitor, restoreIdleContainer, hbc, hbh, hcr, hc]
    refine ⟨by simp [monitor], by simp [monitor], by simp [monitor],
      by simp [monitor, hc], ?_, hops⟩
    rw [hops]
    simp [List.count_cons]

/-- Witness for C3 at the concrete fixture: exit 0 clears running, records
the logs, calls back once, and restores; exit 2 records the job-failure
message without calling back. -/
theorem monitor_spec_witness :
    ((monitor tFix "c0" (.exited 0 none) menvFix).1.running = false ∧
     (monitor tFix "c0" (.exited 0 none) menvFix).1.lastExitCode = 0 ∧
     (monitor tFix "c0" (.exited 0 none) menvFix).1.lastLogs = menvFix.logs ∧
     (monitor tFix "c0" (.exited 0 none) menvFix).2.count DockerOp.callback = 1 ∧
     (monitor tFix "c0" (.exited 0 none) menvFix).2 =
       [DockerOp.fetchLogs "c0" 500, DockerOp.callback,
        DockerOp.removeContainer tFix.containerName,
        DockerOp.createContainer tFix.containerName { cmd := ["sleep"], rest := 4 } 6,
        DockerOp.startContainer "c1"]) ∧
    ((monitor tFix "c0" (.exited 2 none) menvFix).1.lastError =
        "training failed with exit code " ++ toString (2 : Int) ∧
     (monitor tFix "c0" (.exited 2 none) menvFix).2.count DockerOp.callback = 0) :=
  ⟨(monitor_spec tFix "c0" menvFix { cmd := ["sleep"], rest := 4 } 6 "c1"
      rfl rfl rfl rfl).1,
   ⟨((monitor_spec tFix "c0" menvFix { cmd := ["sleep"], rest := 4 } 6 "c1"
      rfl rfl rfl rfl).2 2 (by decide)).2.2.2.1,
    ((monitor_spec tFix "c0" menvFix { cmd := ["sleep"], rest := 4 } 6 "c1"
      rfl rfl rfl rfl).2 2 (by decide)).2.2.2.2.1⟩⟩

/-- C9 counterexample: a successful Start leaves the previous run's exit
code (3) in place, so not every field of the record is freshly recorded. -/
theorem Start_keeps_lastExitCode :
    (Start tPrev senvFix cfgFix 100).2 = .ok () ∧
    (Start tPrev senvFix cfgFix 100).1.1.lastExitCode = 3 ∧
    tPrev.lastExitCode = 3 := by
  constructor
  · rfl
  · exact ⟨rfl, rfl⟩

/-- C9 amended: a successful Start freshly records the config and start
time, sets the running flag and clears the error and log state, but the
last exit code keeps the previous run's value. -/
theorem Start_success_overwrites (t : Trainer) (env : StartEnv) (cfg : TrainConfig)
    (now : Nat) (h : (Start t env cfg now).2 = .ok ()) :
    (Start t env cfg now).1.1.running = true ∧
    (Start t env cfg now).1.1.startedAt = now ∧
    (Start t env cfg now).1.1.lastError = "" ∧
    (Start t env cfg now).1.1.lastLogs = "" ∧
    (Start t env cfg now).1.1.lastConfig = some cfg ∧
    (Start t env cfg now).1.1.lastExitCode = t.lastExitCode := by
  by_cases hl : env.liveRunning = true
  · simp [Start, hl] at h
  · rcases hins : env.inspect with e | ⟨bc, bh⟩
    · simp [Start, hl, hins] at h
    · rcases hcr : env.createResult with e | cid
      · simp [Start, hl, hins, hcr] at h
      · rcases hst : env.startResult with e | u
        · simp [Start, hl, hins, hcr, hst] at h
        · simp [Start, hl, hins, hcr, hst]

theorem buildAndSwap_ok_fields (p : ORTPredictor) (w : World) (env : ReloadEnv)
    (mi : ModelInfo) (dir : String) (p2 : ORTPredictor) (w2 : World)
    (h : buildAndSwap p w env mi dir = ((p2, w2), .ok ())) :
    p2.model = some mi ∧ p2.modelsDir = dir := by
  cases hin : env.newInTensor with
  | error e => simp [buildAndSwap, hin] at h
  | ok nin =>
    cases hout : env.newOutTensor with
    | error e => simp [buildAndSwap, hin, hout] at h
    | ok nout =>
      cases hg : env.getwd with
      | error e => simp [buildAndSwap, hin, hout, hg] at h
      | ok d =>
        by_cases hc : env.chdirOk = false
        · simp [buildAndSwap, hin, hout, hg, hc] at h
        · cases hs : env.newSession with
          | error e => simp [buildAndSwap, hin, hout, hg, hc, hs] at h
          | ok ns =>
            simp only [buildAndSwap, hin, hout, hg, if_neg hc, hs, Prod.mk.injEq] at h
            rw [← h.1.1]
            exact ⟨rfl, rfl⟩

/-- C1: whenever discovery resolves a genuinely new model but building the
replacement fails (input tensor, output tensor, or session construction
returns an error), Reload returns an error and the predictor state — the
active model, session, tensors and stored models directory — is exactly
what it was before the call. -/
theorem Reload_build_failure_frame (p : ORTPredictor) (w : World) (env : ReloadEnv)
    (modelsDir version : String) (mi : ModelInfo)
    (hfind : FindSkyStateModel env.fs (if modelsDir = "" then p.modelsDir else modelsDir)
      version = .ok (some mi))
    (hdiff : ∀ m : ModelInfo, p.model = some m → m.onnxPath ≠ mi.onnxPath)
    (hfail : (∃ e, env.newInTensor = .error e) ∨ (∃ e, env.newOutTensor = .error e) ∨
             (∃ e, env.newSession = .error e)) :
    (∃ e, (Reload p w env modelsDir version).2 = .error e) ∧
    (Reload p w env modelsDir version).1.1 = p := by
  have hred : Reload p w env modelsDir version =
      buildAndSwap p w env mi (if modelsDir = "" then p.modelsDir else modelsDir) := by
    simp only [Reload, hfind]
    cases hm : p.model with
    | none => rfl
    | some m => simp [hdiff m hm]
  rw [hred]
  rcases hfail with ⟨e, he⟩ | ⟨e, he⟩ | ⟨e, he⟩
  · simp [buildAndSwap, he]
  · cases hin : env.newInTensor with
    | error e2 => simp [buildAndSwap, hin]
    | ok nin => simp [buildAndSwap, hin, he]
  · cases hin : env.newInTensor with
    | error e2 => simp [buildAndSwap, hin]
    | ok nin =>
      cases hout : env.newOutTensor with
      | error e2 => simp [buildAndSwap, hin, hout]
      | ok nout =>
        cases hg : env.getwd with
        | error e2 => simp [buildAndSwap, hin, hout, hg]
        | ok d =>
          by_cases hc : env.chdirOk = false
          · simp [buildAndSwap, hin, hout, hg, hc]
          · simp [buildAndSwap, hin, hout, hg, hc, he]

/-- Witness for C1: against the valid filesystem fixture but with session
construction failing, Reload on the unloaded predictor errors and leaves
the predictor untouched. -/
theorem Reload_build_failure_frame_witness :
    (∃ e, (Reload pFix { destroyed := [] }
      { envFix with newSession := .error "boom" } "models" "").2 = .error e) ∧
    (Reload pFix { destroyed := [] }
      { envFix with newSession := .error "boom" } "models" "").1.1 = pFix :=
  Reload_build_failure_frame pFix { destroyed := [] }
    { envFix with newSession := .error "boom" } "models" "" miFix
    (by decide) (fun m hm => by simp [pFix] at hm)
    (Or.inr (Or.inr ⟨"boom", rfl⟩))

/-- C2: when discovery resolves to the artifact path already active, Reload
returns success at once with the predictor and the native world unchanged;
consequently, once any Reload has succeeded, repeating it with the same
oracle is a no-op with identical state, so two reloads resolving to the
same artifact perform at most one session rebuild. -/
theorem Reload_idempotent (p : ORTPredictor) (w : World) (env : ReloadEnv)
    (modelsDir version : String) :
    (∀ mi m : ModelInfo,
      FindSkyStateModel env.fs (if modelsDir = "" then p.modelsDir else modelsDir) version
        = .ok (some mi) →
      p.model = some m → m.onnxPath = mi.onnxPath →
      Reload p w env modelsDir version = ((p, w), .ok ())) ∧
    (∀ p2 w2, Reload p w env modelsDir version = ((p2, w2), .ok ()) →
      Reload p2 w2 env modelsDir version = ((p2, w2), .ok ())) := by
  constructor
  · intro mi m hfind hm he
    simp [Reload, hfind, hm, he]
  · intro p2 w2 h
    cases hf : FindSkyStateModel env.fs (if modelsDir = "" then p.modelsDir else modelsDir)
        version with
    | error e => simp [Reload, hf] at h
    | ok omi =>
      cases omi with
      | none =>
        simp only [Reload, hf, Prod.mk.injEq] at h
        obtain ⟨⟨h1, h2⟩, _⟩ := h
        subst h1
        subst h2
        simp [Reload, hf]
      | some mi =>
        have step : ∀ dirEq : (if modelsDir = "" then p2.modelsDir else modelsDir) =
            (if modelsDir = "" then p.modelsDir else modelsDir),
            p2.model = some mi → Reload p2 w2 env modelsDir version = ((p2, w2), .ok ()) := by
          intro dirEq hm2
          simp [Reload, dirEq, hf, hm2]
        cases hm : p.model with
        | some m =>
          by_cases he : m.onnxPath = mi.onnxPath
          · simp only [Reload, hf, hm, if_pos he, Prod.mk.injEq] at h
            obtain ⟨⟨h1, h2⟩, _⟩ := h
            subst h1
            subst h2
            simp [Reload, hf, hm, he]
          · have hba : buildAndSwap p w env mi
                (if modelsDir = "" then p.modelsDir else modelsDir) = ((p2, w2), .ok ()) := by
              rw [← h]
              simp [Reload, hf, hm, he]
            obtain ⟨hmod, hdir⟩ := buildAndSwap_ok_fields _ _ _ _ _ _ _ hba
            refine step ?_ hmod
            by_cases hmd : modelsDir = ""
            · simp [hmd, hdir]
            · simp [hmd]
        | none =>
          have hba : buildAndSwap p w env mi
              (if modelsDir = "" then p.modelsDir else modelsDir) = ((p2, w2), .ok ()) := by
            rw [← h]
            simp [Reload, hf, hm]
          obtain ⟨hmod, hdir⟩ := buildAndSwap_ok_fields _ _ _ _ _ _ _ hba
          refine step ?_ hmod
          by_cases hmd : modelsDir = ""
          · simp [hmd, hdir]
          · simp [hmd]

/-- Witness for C2: a successful load followed by a repeat of the same call
is a no-op, and a reload resolving to the already-active path is a no-op. -/
theorem Reload_idempotent_witness :
    Reload { pFix with model := some miFix } { destroyed := [] } envFix "models" "" =
      (({ pFix with model := some miFix }, { destroyed := [] }), .ok ()) ∧
    Reload (Reload pFix { destroyed := [] } envFix "models" "").1.1
        (Reload pFix { destroyed := [] } envFix "models" "").1.2 envFix "models" "" =
      (((Reload pFix { destroyed := [] } envFix "models" "").1.1,
        (Reload pFix { destroyed := [] } envFix "models" "").1.2), .ok ()) :=
  ⟨(Reload_idempotent { pFix with model := some miFix } { destroyed := [] }
      envFix "models" "").1 miFix miFix (by decide) rfl rfl,
   (Reload_idempotent pFix { destroyed := [] } envFix "models" "").2
      (Reload pFix { destroyed := [] } envFix "models" "").1.1
      (Reload pFix { destroyed := [] } envFix "models" "").1.2 rfl⟩

/-- C10: a reload whose discovery reports the distinguished "no model"
result returns success with the predictor, its stored models directory and
the native world completely unchanged; and discovery reports "no model"
exactly in the enumerated situations: missing skystate root, no v-prefixed
version directories, an explicitly requested version with no matching
directory, and a missing artifact file. -/
theorem Reload_noModel_noop (p : ORTPredictor) (w : World) (env : ReloadEnv)
    (modelsDir version : String) :
    (FindSkyStateModel env.fs (if modelsDir = "" then p.modelsDir else modelsDir) version
        = .ok none →
      Reload p w env modelsDir version = ((p, w), .ok ())) ∧
    (∀ fs : FS, ∀ mdir ver : String,
      fs.readDir (joinPath mdir "skystate") = .notExist →
      FindSkyStateModel fs mdir ver = .ok none) ∧
    (∀ fs : FS, ∀ mdir ver : String, ∀ ents : List DirEnt,
      fs.readDir (joinPath mdir "skystate") = .ok ents → versionDirs ents = [] →
      FindSkyStateModel fs mdir ver = .ok none) ∧
    (∀ fs : FS, ∀ mdir ver : String, ∀ ents : List DirEnt,
      fs.readDir (joinPath mdir "skystate") = .ok ents → ver ≠ "" →
      ver ∉ versionDirs ents → FindSkyStateModel fs mdir ver = .ok none) ∧
    (∀ fs : FS, ∀ mdir ver : String, ∀ ents : List DirEnt,
      fs.readDir (joinPath mdir "skystate") = .ok ents →
      (∀ pth : String, fs.statOk pth = false) →
      FindSkyStateModel fs mdir ver = .ok none) := by
  refine ⟨?_, ?_, ?_, ?_, ?_⟩
  · intro h
    simp [Reload, h]
  · intro fs mdir ver h
    simp [FindSkyStateModel, h]
  · intro fs mdir ver ents hr hv
    simp [FindSkyStateModel, hr, hv]
  · intro fs mdir ver ents hr hne hnm
    by_cases hv : versionDirs ents = []
    · simp [FindSkyStateModel, hr, hv]
    · simp [FindSkyStateModel, hr, hv, hne, hnm]
  · intro fs mdir ver ents hr hst
    simp only [FindSkyStateModel, hr]
    by_cases hv : versionDirs ents = []
    · simp [hv]
    · simp only [if_neg hv]
      split
      · rfl
      · simp [hst]

/-- Witness for C10: over a filesystem with no version directories, Reload
on a loaded predictor succeeds and changes nothing; and each enumerated
discovery condition yields "no model" at a concrete input. -/
theorem Reload_noModel_noop_witness :
    Reload pLoaded { destroyed := [] } { envFix with fs := fsEmpty } "models" "" =
      ((pLoaded, { destroyed := [] }), .ok ()) ∧
    FindSkyStateModel fsNone "models" "" = .ok none ∧
    FindSkyStateModel fsFix "models" "v7" = .ok none ∧
    FindSkyStateModel { fsFix with statOk := fun _ => false } "models" "" = .ok none :=
  ⟨(Reload_noModel_noop pLoaded { destroyed := [] }
      { envFix with fs := fsEmpty } "models" "").1 (by decide),
   (Reload_noModel_noop pFix { destroyed := [] } envFix "models" "").2.1
      fsNone "models" "" rfl,
   (Reload_noModel_noop pFix { destroyed := [] } envFix "models" "").2.2.2.1
      fsFix "models" "v7" [{ name := "v1", isDir := true }] rfl (by decide) (by decide),
   (Reload_noModel_noop pFix { destroyed := [] } envFix "models" "").2.2.2.2
      { fsFix with statOk := fun _ => false } "models" ""
      [{ name := "v1", isDir := true }] rfl (fun _ => rfl)⟩

/-- C6 (code defect): Close on a loaded predictor destroys the native
handles but leaves the predictor fields set, so the post-Close PredictImage
call does not take the unloaded path: it operates on the already-destroyed
input tensor 11, session 10 and output tensor 12 and returns a prediction,
instead of being a no-op or an explicit error. -/
theorem close_then_predict_runs_destroyed_session :
    (Close pLoaded { destroyed := [] }).2 = none ∧
    (Close pLoaded { destroyed := [] }).1.1 = pLoaded ∧
    (Close pLoaded { destroyed := [] }).1.2.destroyed = [10, 11, 12] ∧
    pLoaded.session = some 10 ∧
    (∃ pred, (PredictImage pLoaded penvFix).1 = PredictResult.ok pred) ∧
    (PredictImage pLoaded penvFix).2 = [some 11, some 10, some 12] :=
  ⟨rfl, rfl, rfl, rfl, ⟨_, rfl⟩, rfl⟩

theorem getLastD_mem : ∀ (l : List String) (d : String), l ≠ [] → l.getLastD d ∈ l := by
  intro l
  induction l with
  | nil => simp
  | cons a t ih =>
    intro d _
    cases t with
    | nil => simp [List.getLastD]
    | cons b t2 =>
      rw [List.getLastD_cons]
      exact List.mem_cons_of_mem _ (ih a (by simp))

theorem sorted_le_getLastD :
    ∀ (l : List String) (d : String),
      List.Sorted (fun a b => a.toList ≤ b.toList) l →
      ∀ x ∈ l, x.toList ≤ (l.getLastD d).toList := by
  intro l
  induction l with
  | nil => simp
  | cons a t ih =>
    intro d hs x hx
    cases t with
    | nil =>
      rw [List.mem_singleton.mp hx]
      simp [List.getLastD]
    | cons b t2 =>
      rw [List.getLastD_cons]
      rcases List.mem_cons.mp hx with rfl | hx2
      · have hmem : (b :: t2).getLastD x ∈ b :: t2 := getLastD_mem _ _ (by simp)
        exact List.rel_of_sorted_cons hs _ hmem
      · exact ih a hs.of_cons x hx2

theorem pickLatest_spec (vers : List String) (hne : vers ≠ []) :
    pickLatest vers ∈ vers ∧ ∀ v ∈ vers, v.toList ≤ (pickLatest vers).toList := by
  have hperm := List.perm_insertionSort (fun a b => a.toList ≤ b.toList) vers
  have hsorted := List.sorted_insertionSort (fun a b => a.toList ≤ b.toList) vers
  have hne2 : vers.insertionSort (fun a b => a.toList ≤ b.toList) ≠ [] := by
    intro h0
    apply hne
    have hlen := hperm.length_eq
    rw [h0] at hlen
    exact List.eq_nil_of_length_eq_zero hlen.symm
  constructor
  · exact hperm.mem_iff.mp (getLastD_mem _ "" hne2)
  · intro v hv
    exact sorted_le_getLastD _ "" hsorted v (hperm.mem_iff.mpr hv)

theorem findModel_version_eq (fs : FS) (mdir : String) (ents : List DirEnt) (mi : ModelInfo)
    (hr : fs.readDir (joinPath mdir "skystate") = .ok ents)
    (h : FindSkyStateModel fs mdir "" = .ok (some mi)) :
    mi.version = pickLatest (versionDirs ents) := by
  simp only [FindSkyStateModel, hr] at h
  by_cases hv : versionDirs ents = []
  · simp [hv] at h
  · simp only [if_neg hv, eq_self_iff_true, if_true] at h
    by_cases hs : fs.statOk (joinPath (joinPath (joinPath mdir "skystate")
        (pickLatest (versionDirs ents))) "model.onnx") = false
    · rw [if_pos hs] at h
      simp at h
    · rw [if_neg hs] at h
      cases hc : fs.classesAt (joinPath (joinPath (joinPath mdir "skystate")
          (pickLatest (versionDirs ents))) "classes.json") with
      | readFailure m => rw [hc] at h; simp at h
      | parseFailure m => rw [hc] at h; simp at h
      | parsed classes =>
        rw [hc] at h
        dsimp only at h
        cases hb : buildClassNames classes with
        | error e => rw [hb] at h; simp at h
        | ok names =>
          rw [hb] at h
          simp only [Except.ok.injEq, Option.some.injEq] at h
          rw [← h]

/-- C5: when no explicit version is requested, discovery selects the
lexicographically greatest v-prefixed directory name (pure string order, so
v9 wins over v10), and on the Scenario A filesystem — only v1 with a valid
artifact and classes {clear:0, cloudy:1} — it returns version v1 with class
names [clear, cloudy]. -/
theorem findModel_latest_selection :
    (∀ vers : List String, vers ≠ [] →
      pickLatest vers ∈ vers ∧ ∀ v ∈ vers, v.toList ≤ (pickLatest vers).toList) ∧
    (∀ fs : FS, ∀ mdir : String, ∀ ents : List DirEnt, ∀ mi : ModelInfo,
      fs.readDir (joinPath mdir "skystate") = .ok ents →
      FindSkyStateModel fs mdir "" = .ok (some mi) →
      mi.version = pickLatest (versionDirs ents)) ∧
    pickLatest ["v10", "v9"] = "v9" ∧
    (∃ mi, FindSkyStateModel fsV910 "models" "" = .ok (some mi) ∧ mi.version = "v9") ∧
    FindSkyStateModel (fsWith [("clear", 0), ("cloudy", 1)]) "models" "" =
      .ok (some miFix) :=
  ⟨pickLatest_spec, findModel_version_eq, by decide, ⟨miV9, by decide, rfl⟩, by decide⟩

/-- Witness for C5: the selection facts applied at the concrete Scenario A
filesystem and at a concrete version list. -/
theorem findModel_latest_selection_witness :
    (pickLatest ["v2", "v10"] ∈ ["v2", "v10"] ∧
      ∀ v ∈ ["v2", "v10"], v.toList ≤ (pickLatest ["v2", "v10"]).toList) ∧
    miFix.version = pickLatest (versionDirs [{ name := "v1", isDir := true }]) :=
  ⟨findModel_latest_selection.1 ["v2", "v10"] (by decide),
   findModel_latest_selection.2.1 (fsWith [("clear", 0), ("cloudy", 1)]) "models"
     [{ name := "v1", isDir := true }] miFix rfl (by decide)⟩

theorem fsWith_eval (classes : List (String × Int)) :
    FindSkyStateModel (fsWith classes) "models" "" =
      match buildClassNames classes with
      | .error e => .error e
      | .ok names =>
        .ok (some { version := "v1", dir := "models/skystate/v1",
                    onnxPath := "models/skystate/v1/model.onnx",
                    classes := classes, classNames := names }) := rfl

theorem foldlMax_bounds :
    ∀ (l : List (String × Int)) (a : Int),
      a ≤ l.foldl (fun m p => if p.2 > m then p.2 else m) a ∧
      ∀ p ∈ l, p.2 ≤ l.foldl (fun m p => if p.2 > m then p.2 else m) a := by
  intro l
  induction l with
  | nil =>
    intro a
    exact ⟨le_refl _, by simp⟩
  | cons q t ih =>
    intro a
    simp only [List.foldl_cons]
    obtain ⟨h1, h2⟩ := ih (if q.2 > a then q.2 else a)
    have ha : a ≤ (if q.2 > a then q.2 else a) := by split <;> omega
    have hq : q.2 ≤ (if q.2 > a then q.2 else a) := by split <;> omega
    refine ⟨le_trans ha h1, ?_⟩
    intro p hp
    rcases List.mem_cons.mp hp with rfl | hp2
    · exact le_trans hq h1
    · exact h2 p hp2

theorem foldlMax_cases :
    ∀ (l : List (String × Int)) (a : Int),
      l.foldl (fun m p => if p.2 > m then p.2 else m) a = a ∨
      ∃ p ∈ l, l.foldl (fun m p => if p.2 > m then p.2 else m) a = p.2 := by
  intro l
  induction l with
  | nil =>
    intro a
    exact Or.inl rfl
  | cons q t ih =>
    intro a
    simp only [List.foldl_cons]
    rcases ih (if q.2 > a then q.2 else a) with h | ⟨p, hp, hpe⟩
    · by_cases hq : q.2 > a
      · exact Or.inr ⟨q, List.mem_cons_self _ _, by rw [h, if_pos hq]⟩
      · exact Or.inl (by rw [h, if_neg hq])
    · exact Or.inr ⟨p, List.mem_cons_of_mem _ hp, hpe⟩

theorem le_classMax (classes : List (String × Int)) :
    ∀ p ∈ classes, p.2 ≤ classMax classes :=
  (foldlMax_bounds classes (-1)).2

theorem assignNames_cons (q : String × Int) (t : List (String × Int)) (init : List String) :
    assignNames (q :: t) init =
      assignNames t (if 0 ≤ q.2 ∧ q.2 < (init.length : Int)
        then init.set q.2.toNat q.1 else init) := rfl

theorem assignNames_length (classes : List (String × Int)) :
    ∀ init : List String, (assignNames classes init).length = init.length := by
  induction classes with
  | nil => exact fun init => rfl
  | cons q t ih =>
    intro init
    rw [assignNames_cons, ih]
    split
    · simp [List.length_set]
    · rfl

theorem assignNames_getD_empty (classes : List (String × Int)) (i : Nat) :
    ∀ init : List String,
      (∀ p ∈ classes, 0 ≤ p.2 → p.2 < (init.length : Int) → p.2.toNat = i → p.1 = "") →
      init.getD i "" = "" →
      (assignNames classes init).getD i "" = "" := by
  induction classes with
  | nil => exact fun init _ h0 => h0
  | cons q t ih =>
    intro init hall h0
    rw [assignNames_cons]
    by_cases hq : 0 ≤ q.2 ∧ q.2 < (init.length : Int)
    · rw [if_pos hq]
      apply ih
      · intro p hp h1 h2 h3
        exact hall p (List.mem_cons_of_mem _ hp) h1 (by rwa [List.length_set] at h2) h3
      · rw [List.getD_eq_getElem?_getD, List.getElem?_set]
        by_cases hqi : q.2.toNat = i
        · have hlt : q.2.toNat < init.length := by omega
          rw [if_pos hqi, if_pos hlt]
          simp [hall q (List.mem_cons_self _ _) hq.1 hq.2 hqi]
        · rw [if_neg hqi, ← List.getD_eq_getElem?_getD]
          exact h0
    · rw [if_neg hq]
      exact ih init (fun p hp h1 h2 h3 => hall p (List.mem_cons_of_mem _ hp) h1 h2 h3) h0

theorem assignNames_getD_frame (classes : List (String × Int)) (i : Nat) :
    ∀ init : List String,
      (∀ p ∈ classes, 0 ≤ p.2 → p.2 < (init.length : Int) → p.2.toNat ≠ i) →
      (assignNames classes init).getD i "" = init.getD i "" := by
  induction classes with
  | nil => exact fun init _ => rfl
  | cons q t ih =>
    intro init hall
    rw [assignNames_cons]
    by_cases hq : 0 ≤ q.2 ∧ q.2 < (init.length : Int)
    · rw [if_pos hq]
      have hne : q.2.toNat ≠ i := hall q (List.mem_cons_self _ _) hq.1 hq.2
      rw [ih _ (fun p hp h1 h2 => hall p (List.mem_cons_of_mem _ hp) h1
        (by rwa [List.length_set] at h2))]
      rw [List.getD_eq_getElem?_getD, List.getElem?_set, if_neg hne,
        ← List.getD_eq_getElem?_getD]
    · rw [if_neg hq]
      exact ih init (fun p hp h1 h2 => hall p (List.mem_cons_of_mem _ hp) h1 h2)

theorem assignNames_getD_unique :
    ∀ (classes : List (String × Int)) (q : String × Int) (i : Nat),
      (classes.map Prod.snd).Nodup → q ∈ classes → 0 ≤ q.2 → q.2.toNat = i →
      ∀ init : List String, q.2 < (init.length : Int) →
        (assignNames classes init).getD i "" = q.1 := by
  intro classes
  induction classes with
  | nil =>
    intro q i _ hq
    simp at hq
  | cons c t ih =>
    intro q i hnd hq h0 hqi init hlen
    have hnd2 : c.2 ∉ t.map Prod.snd ∧ (t.map Prod.snd).Nodup := by
      rw [List.map_cons, List.nodup_cons] at hnd
      exact hnd
    rw [assignNames_cons]
    rcases List.mem_cons.mp hq with rfl | hqt
    · rw [if_pos ⟨h0, hlen⟩]
      rw [assignNames_getD_frame t i _ ?_]
      · have hlt : q.2.toNat < init.length := by omega
        rw [List.getD_eq_getElem?_getD, List.getElem?_set, if_pos hqi, if_pos hlt]
        rfl
      · intro p hp h1 _ h3
        have hpq : p.2 = q.2 := by omega
        exact hnd2.1 (hpq ▸ List.mem_map_of_mem Prod.snd hp)
    · by_cases hc : 0 ≤ c.2 ∧ c.2 < (init.length : Int)
      · rw [if_pos hc]
        exact ih q i hnd2.2 hqt h0 hqi _ (by rw [List.length_set]; exact hlen)
      · rw [if_neg hc]
        exact ih q i hnd2.2 hqt h0 hqi init hlen

theorem buildClassNames_error_of_empty_at (classes : List (String × Int)) (i : Nat)
    (hle : (i : Int) ≤ classMax classes)
    (hempty : (assignNames classes
      (List.replicate ((classMax classes).toNat + 1) "")).getD i "" = "") :
    ∃ j : Nat, buildClassNames classes =
      .error ("classes.json missing name for id " ++ toString j) := by
  have hm0 : (0 : Int) ≤ classMax classes := le_trans (Int.ofNat_nonneg i) hle
  simp only [buildClassNames, if_neg (not_lt.mpr hm0)]
  cases hf : (assignNames classes
      (List.replicate ((classMax classes).toNat + 1) "")).findIdx? (fun s => s = "") with
  | some j => exact ⟨j, rfl⟩
  | none =>
    exfalso
    rw [List.findIdx?_eq_none_iff] at hf
    have hlen : i < (assignNames classes
        (List.replicate ((classMax classes).toNat + 1) "")).length := by
      rw [assignNames_length, List.length_replicate]
      omega
    have hmem : (assignNames classes
        (List.replicate ((classMax classes).toNat + 1) "")).getD i "" ∈
        assignNames classes (List.replicate ((classMax classes).toNat + 1) "") := by
      rw [List.getD_eq_getElem _ _ hlen]
      exact List.getElem_mem hlen
    rw [hempty] at hmem
    have := hf "" hmem
    simp at this

theorem buildClassNames_ok (classes : List (String × Int))
    (hm0 : (0 : Int) ≤ classMax classes)
    (hnonempty : ∀ i : Nat, i < (classMax classes).toNat + 1 →
      (assignNames classes
        (List.replicate ((classMax classes).toNat + 1) "")).getD i "" ≠ "") :
    buildClassNames classes =
      .ok (assignNames classes (List.replicate ((classMax classes).toNat + 1) "")) := by
  simp only [buildClassNames, if_neg (not_lt.mpr hm0)]
  have hf : (assignNames classes
      (List.replicate ((classMax classes).toNat + 1) "")).findIdx? (fun s => s = "") = none := by
    rw [List.findIdx?_eq_none_iff]
    intro x hx
    obtain ⟨n, hn, hxe⟩ := List.mem_iff_getElem.mp hx
    have hlen : n < (classMax classes).toNat + 1 := by
      rw [assignNames_length, List.length_replicate] at hn
      exact hn
    have := hnonempty n hlen
    rw [List.getD_eq_getElem _ _ (by rw [assignNames_length, List.length_replicate]; exact hlen),
      hxe] at this
    simpa using this
  rw [hf]

theorem getD_replicate_empty (n i : Nat) : (List.replicate n "").getD i "" = "" := by
  rw [List.getD_eq_getElem?_getD, List.getElem?_replicate]
  split <;> rfl

/-- C4 counterexample: the class map [("a",0),("",-1)] contains an empty
name, yet findModel succeeds with ClassNames = ["a"] instead of failing
with a missing-name-for-id error — the empty name is attached to id -1,
outside 0..max, so the validation loop never sees it. -/
theorem findModel_emptyName_not_rejected :
    (∃ pr ∈ ([("a", 0), ("", -1)] : List (String × Int)), pr.1 = "") ∧
    FindSkyStateModel (fsWith [("a", 0), ("", -1)]) "models" "" =
      .ok (some { version := "v1", dir := "models/skystate/v1",
                  onnxPath := "models/skystate/v1/model.onnx",
                  classes := [("a", 0), ("", -1)], classNames := ["a"] }) :=
  ⟨⟨("", -1), by decide, rfl⟩, by decide⟩

/-- C4 amended: discovery validates the class map as follows.  A map whose
ids are exactly a permutation of 0..n-1 with no empty names succeeds, with
names[i] the name mapped to index i and every name nonempty; a gap at an
index within 0..max fails with a missing-name-for-id error, as does an
index within 0..max all of whose names are empty; an entirely empty map
fails with the distinct error "classes.json empty"; and every error is
distinct from the "no model" result.  (An empty name attached to an id
outside 0..max, or overwritten by a later duplicate id, does not fail —
the correction the counterexample forces.) -/
theorem findModel_classMap_validation :
    (∀ classes : List (String × Int), ∀ n : Nat, 0 < n →
      List.Perm (classes.map Prod.snd) ((List.range n).map (fun k : Nat => (k : Int))) →
      (∀ p ∈ classes, p.1 ≠ "") →
      ∃ mi : ModelInfo, FindSkyStateModel (fsWith classes) "models" "" = .ok (some mi) ∧
        mi.classNames.length = n ∧
        (∀ p ∈ classes, mi.classNames.getD p.2.toNat "" = p.1) ∧
        (∀ i : Nat, i < n → mi.classNames.getD i "" ≠ "")) ∧
    (∀ classes : List (String × Int), ∀ i : Nat, (i : Int) ≤ classMax classes →
      (∀ p ∈ classes, p.2 ≠ (i : Int)) →
      ∃ j : Nat, FindSkyStateModel (fsWith classes) "models" "" =
        .error ("classes.json missing name for id " ++ toString j)) ∧
    (∀ classes : List (String × Int), ∀ q ∈ classes, q.1 = "" → 0 ≤ q.2 →
      (∀ p ∈ classes, 0 ≤ p.2 → p.2.toNat = q.2.toNat → p.1 = "") →
      ∃ j : Nat, FindSkyStateModel (fsWith classes) "models" "" =
        .error ("classes.json missing name for id " ++ toString j)) ∧
    FindSkyStateModel (fsWith []) "models" "" = .error "classes.json empty" ∧
    (∀ e : String, (Except.error e : Except String (Option ModelInfo)) ≠ .ok none) := by
  refine ⟨?_, ?_, ?_, by decide, fun e h => Except.noConfusion h⟩
  · intro classes n hn hperm hnames
    have hnd : (classes.map Prod.snd).Nodup := by
      rw [hperm.nodup_iff]
      exact List.Nodup.map (fun a b h => by exact_mod_cast h) (List.nodup_range n)
    have hbound : ∀ p ∈ classes, 0 ≤ p.2 ∧ p.2 < (n : Int) := by
      intro p hp
      have hmem : p.2 ∈ (List.range n).map (fun k : Nat => (k : Int)) :=
        hperm.subset (List.mem_map_of_mem _ hp)
      simp only [List.mem_map, List.mem_range] at hmem
      obtain ⟨k, hk, hke⟩ := hmem
      omega
    have hcover : ∀ i : Nat, i < n → ∃ q ∈ classes, q.2 = (i : Int) := by
      intro i hi
      have hmem : ((i : Int)) ∈ classes.map Prod.snd := by
        rw [hperm.mem_iff]
        exact List.mem_map_of_mem (fun k : Nat => (k : Int)) (List.mem_range.mpr hi)
      simp only [List.mem_map] at hmem
      exact hmem
    have hmax : classMax classes = (n : Int) - 1 := by
      have hge : ((n : Int) - 1) ≤ classMax classes := by
        obtain ⟨q, hq, hq2⟩ := hcover (n - 1) (by omega)
        have hle := le_classMax classes q hq
        omega
      have hle2 : classMax classes ≤ (n : Int) - 1 := by
        rcases foldlMax_cases classes (-1) with h | ⟨p, hp, hpe⟩
        · rw [show classMax classes =
            classes.foldl (fun m p => if p.2 > m then p.2 else m) (-1) from rfl, h]
          omega
        · have := (hbound p hp).2
          rw [show classMax classes =
            classes.foldl (fun m p => if p.2 > m then p.2 else m) (-1) from rfl, hpe]
          omega
      omega
    have hm0 : (0 : Int) ≤ classMax classes := by omega
    have hcast : (((classMax classes).toNat + 1 : Nat) : Int) = (n : Int) := by omega
    have hlenN : (assignNames classes
        (List.replicate ((classMax classes).toNat + 1) "")).length = n := by
      rw [assignNames_length, List.length_replicate]
      omega
    have hgetD : ∀ q ∈ classes, (assignNames classes
        (List.replicate ((classMax classes).toNat + 1) "")).getD q.2.toNat "" = q.1 := by
      intro q hq
      apply assignNames_getD_unique classes q q.2.toNat hnd hq (hbound q hq).1 rfl
      rw [List.length_replicate, hcast]
      exact (hbound q hq).2
    have hne : ∀ i : Nat, i < n → (assignNames classes
        (List.replicate ((classMax classes).toNat + 1) "")).getD i "" ≠ "" := by
      intro i hi
      obtain ⟨q, hq, hq2⟩ := hcover i hi
      have hti : q.2.toNat = i := by omega
      have hv := hgetD q hq
      rw [hti] at hv
      rw [hv]
      exact hnames q hq
    have hok := buildClassNames_ok classes hm0 (fun i hi => hne i (by omega))
    refine ⟨{ version := "v1", dir := "models/skystate/v1",
              onnxPath := "models/skystate/v1/model.onnx", classes := classes,
              classNames := assignNames classes
                (List.replicate ((classMax classes).toNat + 1) "") },
            ?_, hlenN, hgetD, hne⟩
    rw [fsWith_eval, hok]
  · intro classes i hle hgap
    have hemp : (assignNames classes
        (List.replicate ((classMax classes).toNat + 1) "")).getD i "" = "" := by
      rw [assignNames_getD_frame]
      · exact getD_replicate_empty _ _
      · intro p hp h1 h2 h3
        exact hgap p hp (by omega)
    obtain ⟨j, hj⟩ := buildClassNames_error_of_empty_at classes i hle hemp
    exact ⟨j, by rw [fsWith_eval, hj]⟩
  · intro classes q hq hq1 hq0 hall
    have hle : ((q.2.toNat : Nat) : Int) ≤ classMax classes := by
      have := le_classMax classes q hq
      omega
    have hemp : (assignNames classes
        (List.replicate ((classMax classes).toNat + 1) "")).getD q.2.toNat "" = "" := by
      apply assignNames_getD_empty
      · intro p hp h1 h2 h3
        exact hall p hp h1 h3
      · exact getD_replicate_empty _ _
    obtain ⟨j, hj⟩ := buildClassNames_error_of_empty_at classes q.2.toNat hle hemp
    exact ⟨j, by rw [fsWith_eval, hj]⟩

/-- Witness for C4 amended: a dense two-class map succeeds with both names
placed; a map missing id 0 fails with a missing-name error; a map whose
only name for id 0 is empty fails likewise. -/
theorem findModel_classMap_validation_witness :
    (∃ mi : ModelInfo,
      FindSkyStateModel (fsWith [("b", 1), ("a", 0)]) "models" "" = .ok (some mi) ∧
      mi.classNames.length = 2 ∧
      (∀ p ∈ ([("b", 1), ("a", 0)] : List (String × Int)),
        mi.classNames.getD p.2.toNat "" = p.1) ∧
      (∀ i : Nat, i < 2 → mi.classNames.getD i "" ≠ "")) ∧
    (∃ j : Nat, FindSkyStateModel (fsWith [("a", 1)]) "models" "" =
      .error ("classes.json missing name for id " ++ toString j)) ∧
    (∃ j : Nat, FindSkyStateModel (fsWith [("", 0), ("b", 1)]) "models" "" =
      .error ("classes.json missing name for id " ++ toString j)) :=
  ⟨findModel_classMap_validation.1 [("b", 1), ("a", 0)] 2 (by decide)
      (by decide) (by decide),
   findModel_classMap_validation.2.1 [("a", 1)] 0 (by decide) (by decide),
   findModel_classMap_validation.2.2.1 [("", 0), ("b", 1)] ("", 0) (by decide)
      rfl (by decide) (by decide)⟩

/-- Witness for C9 amended at the concrete fixture. -/
theorem Start_success_overwrites_witness :
    (Start tPrev senvFix cfgFix 100).1.1.running = true ∧
    (Start tPrev senvFix cfgFix 100).1.1.startedAt = 100 ∧
    (Start tPrev senvFix cfgFix 100).1.1.lastError = "" ∧
    (Start tPrev senvFix cfgFix 100).1.1.lastLogs = "" ∧
    (Start tPrev senvFix cfgFix 100).1.1.lastConfig = some cfgFix ∧
    (Start tPrev senvFix cfgFix 100).1.1.lastExitCode = tPrev.lastExitCode :=
  Start_success_overwrites tPrev senvFix cfgFix 100 rfl

end SkyClf
